import Mathlib

/-
Verification development for the YtubVideo-Downloader backend
(src/server.js).  The pure helpers (URL normalizer, filename
sanitizer) are embedded directly; the two HTTP handlers and the
ffmpeg merge pipeline are embedded as total functions from an
abstract environment (outcomes of the external resolver, the two
track downloads, the transcode subprocess and the final response
copy) to an Outcome record holding the response status, the ordered
event trace and the set of temporary files left on disk.
-/

namespace YtDl

/-! ## Character classes -/

/-- Character class of the regex in normalizeYouTubeUrl:
the JS class is written there as a-zA-Z0-9 plus underscore and dash. -/
def isIdChar (c : Char) : Bool :=
  (('a' ≤ c && c ≤ 'z') || ('A' ≤ c && c ≤ 'Z') ||
   ('0' ≤ c && c ≤ '9') || c = '_' || c = '-')

/-- Characters kept by sanitize (src/server.js:70): letters, digits,
underscore, dash, dot and space; everything else is removed. -/
def isAllowedChar (c : Char) : Bool :=
  (('a' ≤ c && c ≤ 'z') || ('A' ≤ c && c ≤ 'Z') ||
   ('0' ≤ c && c ≤ '9') || c = '_' || c = '-' || c = '.' || c = ' ')

/-! ## URL normalizer (src/server.js:61-67) -/

/-- Tests whether the first list is an initial segment of the second. -/
def isStartOf : List Char → List Char → Bool
  | [], _ => true
  | _ :: _, [] => false
  | a :: as, b :: bs => a = b && isStartOf as bs

/-- The literal path segment searched for by the normalizer. -/
def shortsPat : List Char := "/shorts/".data

/-- Embeds the JS call url.includes two slash shorts slash:
true when the pattern occurs somewhere in the list. -/
def hasShorts : List Char → Bool
  | [] => false
  | c :: cs => isStartOf shortsPat (c :: cs) || hasShorts cs

/-- True when the list is nonempty and its head is an identifier
character: the condition for the regex to accept at a position just
after the pattern. -/
def firstIsId : List Char → Bool
  | [] => false
  | c :: _ => isIdChar c

/-- True when some occurrence of the shorts segment is immediately
followed by at least one identifier character, i.e. when the regex
of the normalizer has a match. -/
def shortsWithId : List Char → Bool
  | [] => false
  | c :: cs =>
    (isStartOf shortsPat (c :: cs) && firstIsId ((c :: cs).drop 8)) ||
    shortsWithId cs

/-- Embeds the regex match of src/server.js:63: scan left to right
for the first position where the shorts segment is followed by at
least one identifier character; the capture is the maximal run of
identifier characters there.  Returns none when the regex fails. -/
def matchShorts : List Char → Option (List Char)
  | [] => none
  | c :: cs =>
    if isStartOf shortsPat (c :: cs) then
      let idc := ((c :: cs).drop 8).takeWhile isIdChar
      if idc.isEmpty then matchShorts cs else some idc
    else matchShorts cs

/-- The canonical watch URL stem interpolated at src/server.js:64. -/
def watchBase : String := "https://www.youtube.com/watch?v="

/-- Embeds normalizeYouTubeUrl (src/server.js:61-67): when the URL
contains the shorts segment, the capture of the regex (or the JS
value undefined, rendered as the string undefined by the template
literal, when the regex fails) is interpolated into the watch form;
otherwise the URL is returned unchanged. -/
def normalizeYouTubeUrl (url : String) : String :=
  if hasShorts url.data then
    match matchShorts url.data with
    | some id => watchBase ++ String.mk id
    | none => watchBase ++ "undefined"
  else url

/-! ## Filename sanitizer (src/server.js:68-71) -/

/-- Embeds the global regex replace of sanitize: every character
outside the allowed class is removed, the rest kept in order. -/
def sanitizeChars : List Char → List Char
  | [] => []
  | c :: cs => if isAllowedChar c then c :: sanitizeChars cs else sanitizeChars cs

/-- Embeds sanitize (src/server.js:68-71). -/
def sanitize (title : String) : String :=
  String.mk (sanitizeChars title.data)

/-! ## Temporary-file cleanup (src/server.js:204 and 210)

The cleanup line is
  forEach p, existsSync p and then unlinkSync p.
unlinkSync throws when the file is missing, so it is modelled in
Except; existsSync guards it.  The filesystem is the list of
existing temporary paths. -/

/-- Embeds fs.existsSync restricted to the temp files we track. -/
def existsSync (p : String) (fs : List String) : Bool := p ∈ fs

/-- Embeds fs.unlinkSync: deletes the file or throws ENOENT. -/
def unlinkSync (p : String) (fs : List String) : Except String (List String) :=
  if p ∈ fs then .ok (fs.erase p) else .error "ENOENT"

/-- One iteration of the forEach cleanup loop: delete the path only
when it currently exists. -/
def releaseStep (acc : Except String (List String)) (p : String) :
    Except String (List String) := do
  let s ← acc
  if existsSync p s then unlinkSync p s else pure s

/-- Embeds the whole cleanup line: best-effort deletion of every
path of the work item that exists. -/
def release (paths : List String) (fs : List String) :
    Except String (List String) :=
  paths.foldl releaseStep (.ok fs)

/-- The same loop, also recording one unlink event per deleted file;
used inside the merge pipeline model.  Its first component agrees
with release (see release_eq_releaseTrace). -/
def releaseTrace (paths : List String) (fs : List String) :
    List String × List String :=
  paths.foldl
    (fun acc p =>
      if p ∈ acc.1 then (acc.1.erase p, acc.2 ++ [p]) else acc)
    (fs, [])

/-! ## Request model for the /download and /info handlers

The external world is abstracted by an Env: the resolver result of
ytdl.getInfo (none models a thrown error, caught by the outer try),
the success of each of the two track downloads, of the ffmpeg
transcode and of the final stream to the response, the size of the
merged file, whether a failed transcode left a partial output file,
and the unique suffix built at src/server.js:164. -/

/-- One entry of info.formats as consumed by the handler.  The itag
field already holds the result of itag.toString as compared at
src/server.js:128. -/
structure Format where
  itag : String
  hasVideo : Bool
  hasAudio : Bool
deriving DecidableEq

/-- The slice of the ytdl.getInfo result the handler reads. -/
structure Info where
  title : String
  formats : List Format
deriving DecidableEq

/-- Query parameters of GET /download after percent-decoding.  The
empty string in qtype models an absent type parameter (the JS
expression type or-else video treats both the same way). -/
structure Req where
  url : String
  quality : String
  qtype : String
deriving DecidableEq

/-- Abstract outcomes of every external interaction of one request. -/
structure Env where
  infoRes : Option Info
  videoOk : Bool
  audioOk : Bool
  transcodeOk : Bool
  junkOut : Bool
  streamOk : Bool
  outSize : Nat
  unique : String
deriving DecidableEq

/-- Observable events of one request, in program order.  The track
flag of startDL and doneDL is true for the video track. -/
inductive Ev where
  | validateUrl (url : String)
  | resolve (url : String)
  | setHeader (name value : String)
  | mkTempDir
  | startDirect (filt quality : String)
  | startDL (track : Bool) (path : String)
  | doneDL (track : Bool) (ok : Bool)
  | startTranscode
  | doneTranscode (ok : Bool)
  | startFileStream (path : String)
  | doneFileStream (ok : Bool)
  | unlinkFile (path : String)
  | sendStatus (code : Nat)
deriving DecidableEq

/-- Event tags: events with their variable payloads (URLs, file
paths, header values, sizes) erased, keeping header names, track
flags, success flags and status codes.  Temporal claims are stated
over the tag trace. -/
inductive ETag where
  | validateUrl
  | resolve
  | setHeader (name : String)
  | mkTempDir
  | startDirect
  | startDL (track : Bool)
  | doneDL (track : Bool) (ok : Bool)
  | startTranscode
  | doneTranscode (ok : Bool)
  | startFileStream
  | doneFileStream (ok : Bool)
  | unlinkFile
  | sendStatus (code : Nat)
deriving DecidableEq

/-- Erases the variable payload of an event. -/
def tagOf : Ev → ETag
  | .validateUrl _ => .validateUrl
  | .resolve _ => .resolve
  | .setHeader n _ => .setHeader n
  | .mkTempDir => .mkTempDir
  | .startDirect _ _ => .startDirect
  | .startDL t _ => .startDL t
  | .doneDL t ok => .doneDL t ok
  | .startTranscode => .startTranscode
  | .doneTranscode ok => .doneTranscode ok
  | .startFileStream _ => .startFileStream
  | .doneFileStream ok => .doneFileStream ok
  | .unlinkFile _ => .unlinkFile
  | .sendStatus c => .sendStatus c

/-- The delivery strategy the handler committed to. -/
inductive Strat where
  | directAudio
  | directVideo
  | mergeAV
deriving DecidableEq

/-- Result of one modelled request: the explicit status code sent by
res.status (none when the handler streamed a 200 body), the ordered
event trace, the temporary files still existing when the request is
over, and the chosen strategy. -/
structure Outcome where
  status : Option Nat
  events : List Ev
  files : List String
  strategy : Option Strat
deriving DecidableEq

/-- The effective delivery type: the JS expression
req.query.type or-else video (src/server.js:116). -/
def effType (q : String) : String := if q = "" then "video" else q

/-- The per-request temporary path scheme of src/server.js:165-167:
temp directory, sanitized title, unique suffix, role suffix. -/
def tempFilePath (title unique suffix : String) : String :=
  "temp/" ++ title ++ "_" ++ unique ++ suffix

/-- Embeds the merge section of the /download handler
(src/server.js:162-212).  Both write streams are created when the
downloads start, so both files exist from that point on.  On a
download failure the code answers 500 and runs no cleanup
(src/server.js:185-188), so both files stay behind.  On a transcode
error, and in the pipeline callback after streaming, the cleanup
line deletes every path that exists. -/
def mergeRun (env : Env) (vP aP oP : String) (pre : List Ev) : Outcome :=
  let evStart := pre ++ [Ev.startDL true vP, Ev.startDL false aP]
  let fs0 := [vP, aP]
  if env.videoOk && env.audioOk then
    let ev1 := evStart ++ [Ev.doneDL true true, Ev.doneDL false true]
    if env.transcodeOk then
      let fs1 := fs0 ++ [oP]
      let cl := releaseTrace [vP, aP, oP] fs1
      { status := none
        events := ev1 ++
          [Ev.startTranscode, Ev.doneTranscode true,
           Ev.setHeader "Content-Length" (toString env.outSize),
           Ev.setHeader "Content-Type" "video/mp4",
           Ev.startFileStream oP, Ev.doneFileStream env.streamOk] ++
          cl.2.map Ev.unlinkFile
        files := cl.1
        strategy := some .mergeAV }
    else
      let fs1 := if env.junkOut then fs0 ++ [oP] else fs0
      let cl := releaseTrace [vP, aP, oP] fs1
      { status := some 500
        events := ev1 ++ [Ev.startTranscode, Ev.doneTranscode false] ++
          cl.2.map Ev.unlinkFile ++ [Ev.sendStatus 500]
        files := cl.1
        strategy := some .mergeAV }
  else
    { status := some 500
      events := evStart ++
        [Ev.doneDL true env.videoOk, Ev.doneDL false env.audioOk,
         Ev.sendStatus 500]
      files := fs0
      strategy := some .mergeAV }

/-- Embeds the GET /download handler (src/server.js:111-218) over
the abstract environment.  validate stands for ytdl.validateURL. -/
def downloadHandler (validate : String → Bool) (env : Env) (req : Req) :
    Outcome :=
  let rawUrl := normalizeYouTubeUrl req.url
  let itag := req.quality
  let ty := effType req.qtype
  if validate rawUrl = false then
    { status := some 400
      events := [Ev.validateUrl rawUrl, Ev.sendStatus 400]
      files := [], strategy := none }
  else
    match env.infoRes with
    | none =>
      { status := some 500
        events := [Ev.validateUrl rawUrl, Ev.resolve rawUrl, Ev.sendStatus 500]
        files := [], strategy := none }
    | some info =>
      let fmt := info.formats.find? (fun f => f.itag == itag)
      if fmt.isNone && !(ty == "audio") then
        { status := some 400
          events := [Ev.validateUrl rawUrl, Ev.resolve rawUrl, Ev.sendStatus 400]
          files := [], strategy := none }
      else
        let title := sanitize info.title
        let ext := if ty == "audio" then "mp3" else "mp4"
        let pre := [Ev.validateUrl rawUrl, Ev.resolve rawUrl,
          Ev.setHeader "Content-Disposition"
            ("attachment; filename=" ++ title ++ "." ++ ext),
          Ev.mkTempDir]
        if ty == "audio" then
          { status := none
            events := pre ++
              [Ev.setHeader "Content-Type" "audio/mpeg",
               Ev.startDirect "audioonly" "highestaudio",
               Ev.doneFileStream env.streamOk]
            files := [], strategy := some .directAudio }
        else
          match fmt with
          | some f =>
            if f.hasVideo && f.hasAudio then
              { status := none
                events := pre ++
                  [Ev.setHeader "Content-Type" "video/mp4",
                   Ev.startDirect "" itag,
                   Ev.doneFileStream env.streamOk]
                files := [], strategy := some .directVideo }
            else
              mergeRun env
                (tempFilePath title env.unique "_video.mp4")
                (tempFilePath title env.unique "_audio.mp3")
                (tempFilePath title env.unique "_merged.mp4")
                pre
          | none =>
            { status := some 500
              events := pre ++ [Ev.sendStatus 500]
              files := [], strategy := none }

/-- Embeds the GET /info handler (src/server.js:74-107): validate
the normalized URL, then resolve; a resolver error is caught and
answered with 500; success answers 200 with the JSON body. -/
def infoHandler (validate : String → Bool) (env : Env) (url : String) :
    Outcome :=
  let rawUrl := normalizeYouTubeUrl url
  if validate rawUrl = false then
    { status := some 400
      events := [Ev.validateUrl rawUrl, Ev.sendStatus 400]
      files := [], strategy := none }
  else
    match env.infoRes with
    | none =>
      { status := some 500
        events := [Ev.validateUrl rawUrl, Ev.resolve rawUrl, Ev.sendStatus 500]
        files := [], strategy := none }
    | some _ =>
      { status := some 200
        events := [Ev.validateUrl rawUrl, Ev.resolve rawUrl]
        files := [], strategy := none }

/-! ## Trace-order predicates -/

/-- Every occurrence of tag a precedes every occurrence of tag b in
the trace. -/
def allBefore (l : List ETag) (a b : ETag) : Prop :=
  ∀ i j : Fin l.length, l.get i = a → l.get j = b → (i : Nat) < (j : Nat)

instance (l : List ETag) (a b : ETag) : Decidable (allBefore l a b) := by
  unfold allBefore; infer_instance

/-- True when the tag is a setHeader of any name. -/
def isHeaderTag : ETag → Bool
  | .setHeader _ => true
  | _ => false

/-- The property claimed for the merged response: every header is
set only after a successful transcode event. -/
def headersOnlyAfterTranscode (l : List ETag) : Prop :=
  ∀ i : Fin l.length, isHeaderTag (l.get i) = true →
    ∃ j : Fin l.length, (j : Nat) < (i : Nat) ∧ l.get j = .doneTranscode true

instance (l : List ETag) : Decidable (headersOnlyAfterTranscode l) := by
  unfold headersOnlyAfterTranscode; infer_instance

/-- The tag trace of an outcome. -/
def tagsOf (o : Outcome) : List ETag := o.events.map tagOf

/-! ## Concrete fixtures used to instantiate the theorems -/

/-- A resolver answer with a single video-only 1080p format. -/
def infoC : Info := { title := "t", formats := [{ itag := "137", hasVideo := true, hasAudio := false }] }

/-- The video-only format of infoC. -/
def fmtC : Format := { itag := "137", hasVideo := true, hasAudio := false }

/-- An environment where every external step succeeds. -/
def envC : Env :=
  { infoRes := some infoC, videoOk := true, audioOk := true,
    transcodeOk := true, junkOut := false, streamOk := true,
    outSize := 5, unique := "u" }

/-- The same environment with a failing audio track download. -/
def envDLfail : Env := { envC with audioOk := false }

/-- The same environment with a failing transcode that left a
partial output file behind. -/
def envTFail : Env := { envC with transcodeOk := false, junkOut := true }

/-- A merge request: quality 137 is video-only in infoC. -/
def reqC : Req := { url := "https://www.youtube.com/watch?v=x", quality := "137", qtype := "video" }

/-! # Theorems -/

/-! ## Helper lemmas about the shorts matcher -/

theorem firstIsId_takeWhile_ne (l : List Char) (h : firstIsId l = true) :
    l.takeWhile isIdChar ≠ [] := by
  cases l with
  | nil => simp [firstIsId] at h
  | cons c cs =>
    simp only [firstIsId] at h
    simp [List.takeWhile_cons, h]

theorem firstIsId_takeWhile_empty (l : List Char) (h : firstIsId l = false) :
    (l.takeWhile isIdChar).isEmpty = true := by
  cases l with
  | nil => simp
  | cons c cs =>
    simp only [firstIsId] at h
    simp [List.takeWhile_cons, h]

theorem shortsWithId_hasShorts (l : List Char) (h : shortsWithId l = true) :
    hasShorts l = true := by
  induction l with
  | nil => simp [shortsWithId] at h
  | cons c cs ih =>
    simp only [shortsWithId, Bool.or_eq_true, Bool.and_eq_true] at h
    simp only [hasShorts, Bool.or_eq_true]
    rcases h with ⟨h1, _⟩ | h2
    · exact Or.inl h1
    · exact Or.inr (ih h2)

theorem shortsWithId_matchShorts (l : List Char) (h : shortsWithId l = true) :
    ∃ id : List Char, matchShorts l = some id ∧ id ≠ [] ∧
      ∀ c ∈ id, isIdChar c = true := by
  induction l with
  | nil => simp [shortsWithId] at h
  | cons c cs ih =>
    simp only [shortsWithId, Bool.or_eq_true, Bool.and_eq_true] at h
    by_cases hp : isStartOf shortsPat (c :: cs) = true
    · by_cases he : (((c :: cs).drop 8).takeWhile isIdChar).isEmpty = true
      · have hm : matchShorts (c :: cs) = matchShorts cs := by
          simp only [matchShorts, hp, if_pos, he, if_true]
        rcases h with ⟨_, hfirst⟩ | h2
        · exact absurd he (by
            have := firstIsId_takeWhile_ne _ hfirst
            simpa [List.isEmpty_iff] using this)
        · rw [hm]; exact ih h2
      · refine ⟨((c :: cs).drop 8).takeWhile isIdChar, ?_, ?_, ?_⟩
        · simp only [matchShorts, hp, if_true, he, if_false, Bool.false_eq_true]
        · simpa [List.isEmpty_iff] using he
        · intro x hx; exact List.mem_takeWhile_imp hx
    · have hm : matchShorts (c :: cs) = matchShorts cs := by
        simp only [matchShorts, hp, if_false, Bool.false_eq_true]
      rcases h with ⟨h1, _⟩ | h2
      · exact absurd h1 hp
      · rw [hm]; exact ih h2

theorem no_shortsWithId_matchShorts (l : List Char) (h : shortsWithId l = false) :
    matchShorts l = none := by
  induction l with
  | nil => rfl
  | cons c cs ih =>
    simp only [shortsWithId, Bool.or_eq_false_iff, Bool.and_eq_false_iff] at h
    obtain ⟨h1, h2⟩ := h
    by_cases hp : isStartOf shortsPat (c :: cs) = true
    · have hfirst : firstIsId ((c :: cs).drop 8) = false := by
        rcases h1 with h1 | h1
        · exact absurd hp (by simp [h1])
        · exact h1
      have he : (((c :: cs).drop 8).takeWhile isIdChar).isEmpty = true :=
        firstIsId_takeWhile_empty _ hfirst
      simp only [matchShorts, hp, if_true, he]
      exact ih h2
    · simp only [matchShorts, hp, if_false, Bool.false_eq_true]
      exact ih h2

/-! ## Claim C7: the URL normalizer -/

/-- Claim C7: normalizeYouTubeUrl is a pure total function; when the
URL holds a shorts segment followed by a bare content identifier it
returns the canonical watch form carrying a nonempty identifier made
of identifier characters, the concrete shorts URL abc123 maps to the
canonical watch URL, and when no shorts segment is detected the
input is returned unchanged. -/
theorem normalize_correct :
    (∀ url : String, hasShorts url.data = false → normalizeYouTubeUrl url = url) ∧
    (∀ url : String, shortsWithId url.data = true →
      ∃ id : List Char, id ≠ [] ∧ (∀ c ∈ id, isIdChar c = true) ∧
        normalizeYouTubeUrl url = watchBase ++ String.mk id) ∧
    normalizeYouTubeUrl "https://www.youtube.com/shorts/abc123" =
      "https://www.youtube.com/watch?v=abc123" := by
  refine ⟨?_, ?_, by decide⟩
  · intro url h
    simp [normalizeYouTubeUrl, h]
  · intro url h
    obtain ⟨id, hm, hne, hall⟩ := shortsWithId_matchShorts _ h
    refine ⟨id, hne, hall, ?_⟩
    simp [normalizeYouTubeUrl, shortsWithId_hasShorts _ h, hm]

/-- Witness for C7: a URL without a shorts segment passes through. -/
theorem normalize_correct_witness :
    normalizeYouTubeUrl "https://host/clip" = "https://host/clip" :=
  normalize_correct.1 "https://host/clip" (by decide)

/-! ## Claim C10: shorts segment without an identifier -/

/-- Claim C10: when the URL contains the shorts segment but no
occurrence of it is followed by an identifier character, the
normalizer does not pass the URL through: the failed capture is
interpolated as the string undefined. -/
theorem normalize_shorts_no_id (url : String)
    (h1 : hasShorts url.data = true) (h2 : shortsWithId url.data = false) :
    normalizeYouTubeUrl url = "https://www.youtube.com/watch?v=undefined" := by
  have hm := no_shortsWithId_matchShorts _ h2
  simp [normalizeYouTubeUrl, h1, hm]
  rfl

/-- Witness for C10 at a URL ending in the bare shorts segment. -/
theorem normalize_shorts_no_id_witness :
    normalizeYouTubeUrl "https://x/shorts/" =
      "https://www.youtube.com/watch?v=undefined" :=
  normalize_shorts_no_id "https://x/shorts/" (by decide) (by decide)

/-! ## Claim C8: the filename sanitizer -/

theorem sanitizeChars_sublist (l : List Char) : (sanitizeChars l).Sublist l := by
  induction l with
  | nil => simp [sanitizeChars]
  | cons c cs ih =>
    by_cases h : isAllowedChar c = true
    · simpa [sanitizeChars, h] using ih.cons₂ c
    · simp only [sanitizeChars, h]
      exact ih.cons c

theorem sanitizeChars_allowed (l : List Char) (c : Char)
    (h : c ∈ sanitizeChars l) : isAllowedChar c = true := by
  induction l with
  | nil => simp [sanitizeChars] at h
  | cons d ds ih =>
    by_cases hd : isAllowedChar d = true
    · simp only [sanitizeChars, hd, if_true, List.mem_cons] at h
      rcases h with rfl | h
      · exact hd
      · exact ih h
    · simp only [sanitizeChars, hd, if_false, Bool.false_eq_true] at h
      exact ih h

theorem sanitizeChars_count (l : List Char) (c : Char)
    (h : isAllowedChar c = true) :
    (sanitizeChars l).count c = l.count c := by
  induction l with
  | nil => rfl
  | cons d ds ih =>
    by_cases hd : isAllowedChar d = true
    · simp [sanitizeChars, hd, List.count_cons, ih]
    · have hne : d ≠ c := by
        intro hdc; rw [hdc] at hd; exact hd h
      simp [sanitizeChars, hd, List.count_cons, ih, hne]

/-- Claim C8: sanitize deletes exactly the characters outside the
allowed class, keeping the order and every occurrence of the allowed
characters; the concrete title of the spec scenario sanitizes to the
expected string. -/
theorem sanitize_correct :
    sanitize "My: Video / Test?" = "My Video  Test" ∧
    (∀ l : List Char, (sanitizeChars l).Sublist l) ∧
    (∀ (l : List Char) (c : Char), c ∈ sanitizeChars l → isAllowedChar c = true) ∧
    (∀ (l : List Char) (c : Char), isAllowedChar c = true →
      (sanitizeChars l).count c = l.count c) :=
  ⟨by decide, sanitizeChars_sublist, sanitizeChars_allowed, sanitizeChars_count⟩

/-- Witness for C8: counting a retained character concretely. -/
theorem sanitize_correct_witness :
    (sanitizeChars ['!', 'a']).count 'a' = (['!', 'a'] : List Char).count 'a' :=
  sanitize_correct.2.2.2 ['!', 'a'] 'a' (by decide)

/-! ## Claim C9: cleanup is idempotent -/

theorem releaseTrace_of_absent (paths fs : List String) (acc : List String)
    (h : ∀ p ∈ paths, p ∉ fs) :
    paths.foldl
      (fun acc p => if p ∈ acc.1 then (acc.1.erase p, acc.2 ++ [p]) else acc)
      (fs, acc) = (fs, acc) := by
  induction paths with
  | nil => rfl
  | cons p ps ih =>
    have hp : p ∉ fs := h p (List.mem_cons_self p ps)
    simp only [List.foldl_cons, if_neg hp]
    exact ih fun q hq => h q (List.mem_cons_of_mem p hq)

/-- Claim C9: running the cleanup loop on a work item none of whose
paths exist performs no deletion, records no unlink, and does not
error: each path is deleted only when it currently exists, so the
guarded unlinkSync is never reached. -/
theorem release_idempotent (paths fs : List String)
    (h : ∀ p ∈ paths, p ∉ fs) :
    release paths fs = Except.ok fs ∧ (releaseTrace paths fs).2 = [] := by
  constructor
  · unfold release
    induction paths with
    | nil => rfl
    | cons p ps ih =>
      have hp : p ∉ fs := h p (List.mem_cons_self p ps)
      have hstep : releaseStep (Except.ok fs) p = Except.ok fs := by
        show (if existsSync p fs then unlinkSync p fs else pure fs) = Except.ok fs
        simp [existsSync, hp]
        rfl
      simp only [List.foldl_cons, hstep]
      exact ih fun q hq => h q (List.mem_cons_of_mem p hq)
  · unfold releaseTrace
    rw [releaseTrace_of_absent paths fs [] h]

/-- Witness for C9 at a concrete already-clean work item. -/
theorem release_idempotent_witness :
    release ["a", "b"] ["c"] = Except.ok ["c"] ∧
      (releaseTrace ["a", "b"] ["c"]).2 = [] :=
  release_idempotent ["a", "b"] ["c"] (by decide)

/-! ## Claim C3: invalid URL means 400 and no side effect -/

/-- Claim C3: when the normalized URL fails validation, both
handlers answer exactly 400 after the sole validation check: the
trace shows no resolver call, no header, no temp directory, no
download, and the request leaves no file behind. -/
theorem invalid_url_no_side_effects (validate : String → Bool) (env : Env)
    (u q t : String) (h : validate (normalizeYouTubeUrl u) = false) :
    downloadHandler validate env { url := u, quality := q, qtype := t } =
      { status := some 400
        events := [Ev.validateUrl (normalizeYouTubeUrl u), Ev.sendStatus 400]
        files := [], strategy := none } ∧
    infoHandler validate env u =
      { status := some 400
        events := [Ev.validateUrl (normalizeYouTubeUrl u), Ev.sendStatus 400]
        files := [], strategy := none } := by
  constructor
  · simp [downloadHandler, h]
  · simp [infoHandler, h]

/-- Witness for C3 with a rejecting validator. -/
theorem invalid_url_no_side_effects_witness :
    (downloadHandler (fun _ => false) envC { url := "u1", quality := "q", qtype := "t" }).status
        = some 400 ∧
      (infoHandler (fun _ => false) envC "u1").status = some 400 := by
  have h := invalid_url_no_side_effects (fun _ => false) envC "u1" "q" "t" rfl
  exact ⟨by rw [h.1], by rw [h.2]⟩

/-! ## Claim C4: unmatched quality selector for video -/

/-- Claim C4: a video request whose quality selector matches no
resolver format answers exactly 400 right after the resolver call:
no header is set, no temp directory is made, no temporary file is
created and no strategy is chosen. -/
theorem unsupported_quality_400 (validate : String → Bool) (env : Env)
    (req : Req) (info : Info)
    (hv : validate (normalizeYouTubeUrl req.url) = true)
    (hinfo : env.infoRes = some info)
    (hfind : info.formats.find? (fun f => f.itag == req.quality) = none)
    (hty : effType req.qtype = "video") :
    downloadHandler validate env req =
      { status := some 400
        events := [Ev.validateUrl (normalizeYouTubeUrl req.url),
                   Ev.resolve (normalizeYouTubeUrl req.url),
                   Ev.sendStatus 400]
        files := [], strategy := none } := by
  simp [downloadHandler, hv, hinfo, hfind, hty]

/-- Witness for C4 at a selector absent from the format list. -/
theorem unsupported_quality_400_witness :
    downloadHandler (fun _ => true) envC
        { url := "https://y", quality := "999", qtype := "video" } =
      { status := some 400
        events := [Ev.validateUrl (normalizeYouTubeUrl "https://y"),
                   Ev.resolve (normalizeYouTubeUrl "https://y"),
                   Ev.sendStatus 400]
        files := [], strategy := none } :=
  unsupported_quality_400 (fun _ => true) envC
    { url := "https://y", quality := "999", qtype := "video" } infoC
    rfl rfl (by decide) (by decide)

/-! ## Claim C5: audio delivery ignores the quality selector -/

/-- Claim C5: for audio requests the outcome is a function of the
request minus its quality selector: two audio requests differing
only in quality produce identical outcomes; and whenever validation
and resolution succeed the chosen strategy is the direct audio
stream bound to the highest available audio selection. -/
theorem audio_ignores_quality (validate : String → Bool) (env : Env)
    (u q1 q2 : String) :
    downloadHandler validate env { url := u, quality := q1, qtype := "audio" } =
      downloadHandler validate env { url := u, quality := q2, qtype := "audio" } ∧
    (∀ info : Info, validate (normalizeYouTubeUrl u) = true →
      env.infoRes = some info →
      (downloadHandler validate env
          { url := u, quality := q1, qtype := "audio" }).strategy
        = some Strat.directAudio ∧
      Ev.startDirect "audioonly" "highestaudio" ∈
        (downloadHandler validate env
          { url := u, quality := q1, qtype := "audio" }).events) := by
  have hty : effType "audio" = "audio" := by decide
  constructor
  · cases hb : validate (normalizeYouTubeUrl u) with
    | false => simp [downloadHandler, hb]
    | true =>
      cases henv : env.infoRes with
      | none => simp [downloadHandler, hb, henv]
      | some info => simp [downloadHandler, hb, henv, hty]
  · intro info hv hinfo
    constructor
    · simp [downloadHandler, hv, hinfo, hty]
    · simp [downloadHandler, hv, hinfo, hty]

/-- Witness for C5: an audio request with a video-only format list
still yields the direct audio strategy. -/
theorem audio_ignores_quality_witness :
    (downloadHandler (fun _ => true) envC
        { url := "https://y", quality := "360", qtype := "audio" }).strategy
      = some Strat.directAudio :=
  ((audio_ignores_quality (fun _ => true) envC "https://y" "360" "720").2
    infoC rfl rfl).1

/-! ## The merge branch -/

theorem downloadHandler_mergeRun (validate : String → Bool) (env : Env)
    (req : Req) (info : Info) (f : Format)
    (hv : validate (normalizeYouTubeUrl req.url) = true)
    (hinfo : env.infoRes = some info)
    (hfind : info.formats.find? (fun g => g.itag == req.quality) = some f)
    (hty : (effType req.qtype == "audio") = false)
    (hva : (f.hasVideo && f.hasAudio) = false) :
    downloadHandler validate env req =
      mergeRun env
        (tempFilePath (sanitize info.title) env.unique "_video.mp4")
        (tempFilePath (sanitize info.title) env.unique "_audio.mp3")
        (tempFilePath (sanitize info.title) env.unique "_merged.mp4")
        [Ev.validateUrl (normalizeYouTubeUrl req.url),
         Ev.resolve (normalizeYouTubeUrl req.url),
         Ev.setHeader "Content-Disposition"
           ("attachment; filename=" ++ sanitize info.title ++ "." ++ "mp4"),
         Ev.mkTempDir] := by
  simp [downloadHandler, hv, hinfo, hfind, hty, hva]

/-! ## Claim C6: join both downloads, then transcode, then stream -/

/-- Claim C6: in every merge execution of the /download handler the
two track downloads are both started before either completes, the
transcode starts only when both downloads have completed
successfully, and the file-to-response copy starts only after the
transcode has succeeded. -/
theorem merge_join_then_transcode (validate : String → Bool) (env : Env)
    (req : Req) (info : Info) (f : Format)
    (hv : validate (normalizeYouTubeUrl req.url) = true)
    (hinfo : env.infoRes = some info)
    (hfind : info.formats.find? (fun g => g.itag == req.quality) = some f)
    (hty : (effType req.qtype == "audio") = false)
    (hva : (f.hasVideo && f.hasAudio) = false) :
    (∀ t u b : Bool, allBefore (tagsOf (downloadHandler validate env req))
        (ETag.startDL t) (ETag.doneDL u b)) ∧
    (ETag.startTranscode ∈ tagsOf (downloadHandler validate env req) →
      ETag.doneDL true true ∈ tagsOf (downloadHandler validate env req) ∧
      ETag.doneDL false true ∈ tagsOf (downloadHandler validate env req)) ∧
    (∀ t : Bool, allBefore (tagsOf (downloadHandler validate env req))
        (ETag.doneDL t true) ETag.startTranscode) ∧
    (ETag.startFileStream ∈ tagsOf (downloadHandler validate env req) →
      ETag.doneTranscode true ∈ tagsOf (downloadHandler validate env req)) ∧
    allBefore (tagsOf (downloadHandler validate env req))
      (ETag.doneTranscode true) ETag.startFileStream := by
  rw [downloadHandler_mergeRun validate env req info f hv hinfo hfind hty hva]
  obtain ⟨ir, vOk, aOk, tOk, jOk, sOk, sz, un⟩ := env
  cases vOk <;> cases aOk <;> cases tOk <;> cases jOk <;> cases sOk <;>
    simp [mergeRun, tagsOf, tagOf, releaseTrace] <;> decide

/-- Witness for C6 at the all-success merge fixture. -/
theorem merge_join_then_transcode_witness :
    allBefore (tagsOf (downloadHandler (fun _ => true) envC reqC))
      (ETag.doneDL true true) ETag.startTranscode :=
  ((merge_join_then_transcode (fun _ => true) envC reqC infoC fmtC rfl rfl
      (by decide) (by decide) (by decide)).2.2.1) true

/-! ## Claim C2: header ordering in the merge path -/

/-- Counterexample for C2: in a fully successful merge execution the
claim that no response header is set before transcode success is
false, because Content-Disposition is set before the downloads even
start. -/
theorem merge_headers_claim_false :
    ¬ headersOnlyAfterTranscode
        (tagsOf (downloadHandler (fun _ => true) envC reqC)) := by
  decide

/-- Amended claim C2: in every merge execution the Content-Length
and Content-Type headers are set only after the transcode step has
succeeded, while the Content-Disposition header is always set
earlier, before the downloads start. -/
theorem merge_content_headers_after_transcode (validate : String → Bool)
    (env : Env) (req : Req) (info : Info) (f : Format)
    (hv : validate (normalizeYouTubeUrl req.url) = true)
    (hinfo : env.infoRes = some info)
    (hfind : info.formats.find? (fun g => g.itag == req.quality) = some f)
    (hty : (effType req.qtype == "audio") = false)
    (hva : (f.hasVideo && f.hasAudio) = false) :
    (ETag.setHeader "Content-Length" ∈ tagsOf (downloadHandler validate env req) →
      ETag.doneTranscode true ∈ tagsOf (downloadHandler validate env req)) ∧
    allBefore (tagsOf (downloadHandler validate env req))
      (ETag.doneTranscode true) (ETag.setHeader "Content-Length") ∧
    (ETag.setHeader "Content-Type" ∈ tagsOf (downloadHandler validate env req) →
      ETag.doneTranscode true ∈ tagsOf (downloadHandler validate env req)) ∧
    allBefore (tagsOf (downloadHandler validate env req))
      (ETag.doneTranscode true) (ETag.setHeader "Content-Type") ∧
    ETag.setHeader "Content-Disposition" ∈ tagsOf (downloadHandler validate env req) ∧
    (∀ t : Bool, allBefore (tagsOf (downloadHandler validate env req))
      (ETag.setHeader "Content-Disposition") (ETag.startDL t)) := by
  rw [downloadHandler_mergeRun validate env req info f hv hinfo hfind hty hva]
  obtain ⟨ir, vOk, aOk, tOk, jOk, sOk, sz, un⟩ := env
  cases vOk <;> cases aOk <;> cases tOk <;> cases jOk <;> cases sOk <;>
    simp [mergeRun, tagsOf, tagOf, releaseTrace] <;> decide

/-- Witness for the amended C2 at the all-success merge fixture. -/
theorem merge_content_headers_after_transcode_witness :
    ETag.setHeader "Content-Disposition" ∈
      tagsOf (downloadHandler (fun _ => true) envC reqC) :=
  (merge_content_headers_after_transcode (fun _ => true) envC reqC infoC fmtC
      rfl rfl (by decide) (by decide) (by decide)).2.2.2.2.1

/-! ## Claim C1: temporary files after the request completes -/

/-- Claim C1 against the code: in a merge execution where the audio
track download fails, the handler answers 500 and completes while
both already-created temporary files remain on disk, and no unlink
is ever performed; the download-failure branch has no cleanup. -/
theorem merge_leaks_on_download_failure :
    (downloadHandler (fun _ => true) envDLfail reqC).status = some 500 ∧
    (downloadHandler (fun _ => true) envDLfail reqC).files =
      ["temp/t_u_video.mp4", "temp/t_u_audio.mp3"] ∧
    ETag.unlinkFile ∉ tagsOf (downloadHandler (fun _ => true) envDLfail reqC) ∧
    (downloadHandler (fun _ => true) envC reqC).files = [] ∧
    (downloadHandler (fun _ => true) envTFail reqC).files = [] := by
  decide

end YtDl
